import Mathlib

/-!
Verification of the training/evaluation routine of the TuckER knowledge-graph
embedding repository (`training_routine.py`).

The shallow embedding below translates the routine's functions into Lean:

* `DataLoader` models the data-loader object consumed by the routine
  (the loader itself lives in `data_loader.py`, outside the verified source;
  its invariants are modelled from the spec as `DataLoader.WF`).
* `generate_negative_objects_for_triple` / `generate_negative_objects` embed
  the filtered negative generation (lines 17-47).
* `rank`, `eval_step`, `measure_performance` embed the filtered-ranking
  evaluation loop and MRR / hits@k aggregation (lines 50-84).  Scores are
  modelled over `ℚ`; the batch loader of size 100 only partitions the test
  facts while preserving their order, and the per-row computation is
  independent of the batch structure, so the embedding folds over the flat
  list of test facts.
* `measure_performance_modes` embeds the train/eval mode transitions of
  `measure_performance` together with error propagation: the Python code has
  no try/finally, so an exception raised inside the pass propagates before
  `model.train()` is reached.
* `smooth_target` embeds the label-smoothing line of `_train_step` (line 106).
* `train_step_run` embeds the per-epoch batch loop of `_train_step`
  (lines 94-111): per batch one optimizer step is applied and the loss value
  is accumulated, with no finiteness check on the loss.
* `eval_epochs` / `eval_invocations` embed the evaluation-cadence condition of
  the epoch loop in `train` (line 165): `(epoch + 1) % 10 == 0`.
-/

namespace TuckerRoutine

/-- Model of the data-loader object used by `training_routine.py`:
the ordered entity list, the entity-to-index mapping and the
`(subject, relation) → true objects` index (`dl.sr_pairs`).  Entity
identifiers are represented by naturals; only `entity_to_idx` gives them
meaning as tensor indices. -/
structure DataLoader where
  numEntities : Nat
  entities : List Nat
  entity_to_idx : Nat → Nat
  sr_pairs : Nat → Nat → Finset Nat

/-- Modelled from the spec: invariants of `data_loader.py`, which is not part
of the verified source.  Per §3 and §4.1, entities are mapped bijectively to
dense indices and `allEntityIndices()` enumerates them in ascending order
`0..numEntities-1`, so mapping the entity list through `entity_to_idx`
yields exactly `List.range numEntities`; and every true-object index stored
in the SR-pair index is a valid entity index. -/
def DataLoader.WF (dl : DataLoader) : Prop :=
  dl.entities.map dl.entity_to_idx = List.range dl.numEntities ∧
  ∀ s r, dl.sr_pairs s r ⊆ Finset.range dl.numEntities

/-- Embedding of `generate_negative_objects_for_triple` (lines 17-27):
`[dl.entity_to_idx[e] for e in dl.entities if dl.entity_to_idx[e] not in
dl.sr_pairs[(s_idx, r_idx)]]`.  The object argument `o_idx` is accepted but
unused, exactly as in the source. -/
def generate_negative_objects_for_triple (dl : DataLoader)
    (s_idx r_idx o_idx : Nat) : List Nat :=
  (dl.entities.filter
    (fun e => decide (dl.entity_to_idx e ∉ dl.sr_pairs s_idx r_idx))).map
    dl.entity_to_idx

/-- Embedding of `generate_negative_objects` (lines 30-47): applies
`generate_negative_objects_for_triple` to each fact of the batch. -/
def generate_negative_objects (dl : DataLoader)
    (facts : List (Nat × Nat × Nat)) : List (List Nat) :=
  facts.map (fun t => generate_negative_objects_for_triple dl t.1 t.2.1 t.2.2)

/-- Embedding of the rank computation of `measure_performance` (line 70):
`(output[i][negative] >= output[i][o[i]]).sum().item() + 1`, where `output`
is the score vector for the row's `(s, r)` pair. -/
def rank (dl : DataLoader) (output : Nat → ℚ) (s r o : Nat) : Nat :=
  ((generate_negative_objects_for_triple dl s r o).countP
    (fun n => decide (output o ≤ output n))) + 1

/-- Accumulator of the evaluation loop: running reciprocal-rank sum and the
hits@k counters (the Python dict keyed by `ks`). -/
structure EvalAcc where
  mrr : ℚ
  hits : Nat → Nat

/-- One iteration of the inner loop of `measure_performance` (lines 69-75):
compute the rank of the row's true object, add its reciprocal to the MRR
accumulator, and bump every `hits_k[k]` with `rank <= k`. -/
def eval_step (dl : DataLoader) (score : Nat → Nat → Nat → ℚ) (ks : List Nat)
    (acc : EvalAcc) (t : Nat × Nat × Nat) : EvalAcc :=
  ⟨acc.mrr + 1 / (rank dl (score t.1 t.2.1) t.1 t.2.1 t.2.2 : ℚ),
   fun k =>
     if k ∈ ks ∧ rank dl (score t.1 t.2.1) t.1 t.2.1 t.2.2 ≤ k then
       acc.hits k + 1
     else acc.hits k⟩

/-- Embedding of `measure_performance` (lines 50-84): fold the evaluation
step over the test facts starting from zero accumulators, then normalise
both the MRR and each hits@k counter by the number of test facts.
`score s r` is the model's score vector for the pair `(s, r)`. -/
def measure_performance (dl : DataLoader) (score : Nat → Nat → Nat → ℚ)
    (test_facts : List (Nat × Nat × Nat)) (ks : List Nat) : ℚ × (Nat → ℚ) :=
  let acc := test_facts.foldl (eval_step dl score ks) ⟨0, fun _ => 0⟩
  (acc.mrr / (test_facts.length : ℚ),
   fun k => (acc.hits k : ℚ) / (test_facts.length : ℚ))

/-- The two-state train/eval mode machine of the shared model object. -/
inductive Mode where
  | train : Mode
  | eval : Mode
deriving DecidableEq

/-- The body of the evaluation pass with a fallible scorer: for each test
fact the model is invoked on its `(s, r)` pair; a raised error propagates
immediately, aborting the rest of the pass (the Python loop body calls
`model(s, r)` with no exception handler). -/
def eval_pass_body (score : Nat → Nat → Except String (Nat → ℚ)) :
    List (Nat × Nat × Nat) → Except String Unit
  | [] => Except.ok ()
  | t :: ts =>
    match score t.1 t.2.1 with
    | Except.error e => Except.error e
    | Except.ok _ => eval_pass_body score ts

/-- The mode transitions of one run of `measure_performance`. -/
structure ModeTrace where
  duringMode : Mode
  result : Except String Unit
  finalMode : Mode

/-- Embedding of the mode handling of `measure_performance` (lines 58-84):
`model.eval()` is called first, so the whole body runs in eval mode; there
is no try/finally, so `model.train()` (line 83) executes only if the body
completed without raising, and an error leaves the model in eval mode. -/
def measure_performance_modes (score : Nat → Nat → Except String (Nat → ℚ))
    (test_facts : List (Nat × Nat × Nat)) : ModeTrace :=
  match eval_pass_body score test_facts with
  | Except.ok _ => ⟨Mode.eval, Except.ok (), Mode.train⟩
  | Except.error e => ⟨Mode.eval, Except.error e, Mode.eval⟩

/-- Embedding of the label-smoothing line of `_train_step` (line 106):
`target = (1.0 - label_smoothing_rate) * target + label_smoothing_rate *
(1.0 / target.size(1))`, applied elementwise; `target.size(1)` is the
number of entities. -/
def smooth_target (label_smoothing_rate : ℚ) (numEntities : Nat)
    (target : Nat → ℚ) : Nat → ℚ :=
  fun i =>
    (1 - label_smoothing_rate) * target i +
      label_smoothing_rate * (1 / (numEntities : ℚ))

/-- IEEE-style loss values as seen by the training loop: a finite value or
one of the non-finite floats (NaN, ±Inf).  Rationals stand in for the
finite doubles. -/
inductive FloatVal where
  | finite : ℚ → FloatVal
  | nan : FloatVal
  | posinf : FloatVal
  | neginf : FloatVal
deriving DecidableEq

/-- Whether a loss value is finite (not NaN and not ±Inf). -/
def FloatVal.isFinite : FloatVal → Bool
  | FloatVal.finite _ => true
  | _ => false

/-- IEEE addition on loss values, used by `loss_avg += loss_val.item()`:
NaN absorbs everything, opposite infinities give NaN, an infinity absorbs
finite values. -/
def FloatVal.add : FloatVal → FloatVal → FloatVal
  | FloatVal.finite a, FloatVal.finite b => FloatVal.finite (a + b)
  | FloatVal.nan, _ => FloatVal.nan
  | _, FloatVal.nan => FloatVal.nan
  | FloatVal.posinf, FloatVal.neginf => FloatVal.nan
  | FloatVal.neginf, FloatVal.posinf => FloatVal.nan
  | FloatVal.posinf, _ => FloatVal.posinf
  | _, FloatVal.posinf => FloatVal.posinf
  | FloatVal.neginf, _ => FloatVal.neginf
  | _, FloatVal.neginf => FloatVal.neginf

/-- Outcome of one `_train_step` epoch: how many optimizer steps were
applied, the accumulated `loss_avg`, and the error the epoch was aborted
with, if any. -/
structure TrainStepResult where
  optimizer_steps : Nat
  loss_avg : FloatVal
  error : Option String
deriving DecidableEq

/-- Embedding of the batch loop of `_train_step` (lines 94-111), with the
loss value produced by each batch given as input: for every batch the loop
accumulates `loss_avg += loss_val.item()` and applies `optimizer.step()`.
The source contains no finiteness check on `loss_val` and raises no error,
so the fold never sets `error` and performs one optimizer step per batch
unconditionally. -/
def train_step_run (batch_losses : List FloatVal) : TrainStepResult :=
  batch_losses.foldl
    (fun acc l => ⟨acc.optimizer_steps + 1, acc.loss_avg.add l, none⟩)
    ⟨0, FloatVal.finite 0, none⟩

/-- Embedding of the evaluation-cadence condition of the epoch loop of
`train` (lines 155-166): the 0-indexed epochs `epoch` in `range(epochs)`
at which `(epoch + 1) % 10 == 0` holds and `measure_performance` is
invoked. -/
def eval_epochs (epochs : Nat) : List Nat :=
  (List.range epochs).filter (fun epoch => (epoch + 1) % 10 == 0)

/-- Number of evaluator invocations performed by `train` over a run of
`epochs` epochs. -/
def eval_invocations (epochs : Nat) : Nat :=
  (eval_epochs epochs).length

/-- Concrete data-loader from the spec's §8 scenario: 5 entities with the
identity index mapping, and `objectsFor(0, 1) = \x7b2\x7d`, every other pair
unseen in training. -/
def dl5 : DataLoader :=
  ⟨5, [0, 1, 2, 3, 4], fun e => e,
   fun s r => if s = 0 ∧ r = 1 then {2} else ∅⟩

/-- Scores from the spec's §8 scenario: `[0.1, 0.2, 0.9, 0.3, 0.05]` for
every `(s, r)` pair, entities past index 4 scored 0. -/
def score5 : Nat → Nat → Nat → ℚ :=
  fun _ _ n => [(1 : ℚ)/10, 2/10, 9/10, 3/10, 5/100].getD n 0

theorem dl5_wf : dl5.WF := by
  refine ⟨by decide, ?_⟩
  intro s r k hk
  dsimp [dl5] at hk
  split at hk
  · simp only [Finset.mem_singleton] at hk
    subst hk
    decide
  · exact absurd hk (Finset.not_mem_empty k)

theorem gen_eq_range_filter (dl : DataLoader) (h : dl.WF) (s r o : Nat) :
    generate_negative_objects_for_triple dl s r o =
      (List.range dl.numEntities).filter
        (fun k => decide (k ∉ dl.sr_pairs s r)) := by
  unfold generate_negative_objects_for_triple
  rw [← h.1, List.filter_map]
  rfl

theorem gen_nodup (dl : DataLoader) (h : dl.WF) (s r o : Nat) :
    (generate_negative_objects_for_triple dl s r o).Nodup := by
  rw [gen_eq_range_filter dl h]
  exact (List.nodup_range dl.numEntities).filter _

theorem mem_gen_iff (dl : DataLoader) (h : dl.WF) (s r o k : Nat) :
    k ∈ generate_negative_objects_for_triple dl s r o ↔
      k < dl.numEntities ∧ k ∉ dl.sr_pairs s r := by
  rw [gen_eq_range_filter dl h]
  simp [List.mem_filter, List.mem_range]

theorem gen_toFinset (dl : DataLoader) (h : dl.WF) (s r o : Nat) :
    (generate_negative_objects_for_triple dl s r o).toFinset =
      Finset.range dl.numEntities \ dl.sr_pairs s r := by
  ext k
  rw [List.mem_toFinset, mem_gen_iff dl h, Finset.mem_sdiff, Finset.mem_range]

/-- Claim C1: for every test triple `(s, r, o)` with score vector `f`, the
computed rank equals the number of negatives `n` returned by
`generate_negative_objects_for_triple` with `f n ≥ f o`, plus 1; in
particular a negative whose score ties the true object's score increments
the rank (rank is at least 2). -/
theorem rank_eq_count_ge_plus_one (dl : DataLoader) (h : dl.WF)
    (f : Nat → ℚ) (s r o : Nat) :
    rank dl f s r o =
      ((generate_negative_objects_for_triple dl s r o).toFinset.filter
        (fun n => f o ≤ f n)).card + 1 ∧
    ∀ n ∈ generate_negative_objects_for_triple dl s r o,
      f n = f o → 2 ≤ rank dl f s r o := by
  constructor
  · unfold rank
    congr 1
    rw [List.countP_eq_length_filter, ←
      List.toFinset_card_of_nodup ((gen_nodup dl h s r o).filter _),
      List.toFinset_filter]
    simp
  · intro n hn hfn
    unfold rank
    have hpos : 0 < (generate_negative_objects_for_triple dl s r o).countP
        (fun m => decide (f o ≤ f m)) :=
      List.countP_pos_iff.mpr ⟨n, hn, by simp [le_of_eq hfn.symm]⟩
    omega

theorem rank_eq_count_ge_plus_one_witness :
    dl5.WF ∧
    (rank dl5 (score5 0 1) 0 1 2 =
      ((generate_negative_objects_for_triple dl5 0 1 2).toFinset.filter
        (fun n => score5 0 1 2 ≤ score5 0 1 n)).card + 1 ∧
    ∀ n ∈ generate_negative_objects_for_triple dl5 0 1 2,
      score5 0 1 n = score5 0 1 2 → 2 ≤ rank dl5 (score5 0 1) 0 1 2) :=
  ⟨dl5_wf, rank_eq_count_ge_plus_one dl5 dl5_wf (score5 0 1) 0 1 2⟩

/-- Claim C2: for every `(s, r)` pair and any `o`, the negatives returned by
`generate_negative_objects_for_triple` are disjoint from the true-object set
`dl.sr_pairs s r`, and together with it they partition the full entity index
set `\x7b0, ..., numEntities - 1\x7d`. -/
theorem negatives_partition (dl : DataLoader) (h : dl.WF) (s r o : Nat) :
    Disjoint (generate_negative_objects_for_triple dl s r o).toFinset
      (dl.sr_pairs s r) ∧
    (generate_negative_objects_for_triple dl s r o).toFinset ∪
      dl.sr_pairs s r = Finset.range dl.numEntities := by
  rw [gen_toFinset dl h]
  exact ⟨Finset.sdiff_disjoint, Finset.sdiff_union_of_subset (h.2 s r)⟩

theorem negatives_partition_witness :
    dl5.WF ∧
    (Disjoint (generate_negative_objects_for_triple dl5 0 1 2).toFinset
      (dl5.sr_pairs 0 1) ∧
    (generate_negative_objects_for_triple dl5 0 1 2).toFinset ∪
      dl5.sr_pairs 0 1 = Finset.range dl5.numEntities) :=
  ⟨dl5_wf, negatives_partition dl5 dl5_wf 0 1 2⟩

/-- Claim C8: for every `(s, r, o)`, the list of negatives returned by
`generate_negative_objects_for_triple` is sorted in strictly ascending
index order (hence a deterministic ordered sequence). -/
theorem negatives_sorted (dl : DataLoader) (h : dl.WF) (s r o : Nat) :
    List.Sorted (· < ·) (generate_negative_objects_for_triple dl s r o) := by
  rw [gen_eq_range_filter dl h]
  exact (List.pairwise_lt_range dl.numEntities).filter _

theorem negatives_sorted_witness :
    dl5.WF ∧
    List.Sorted (· < ·) (generate_negative_objects_for_triple dl5 0 1 2) :=
  ⟨dl5_wf, negatives_sorted dl5 dl5_wf 0 1 2⟩

/-- Claim C10: negative generation ignores its object argument — for every
`(s, r)` and any `o, o'` the returned lists are equal — and the query's own
object appears among the negatives exactly when it is a valid entity index
not recorded in the training-derived `dl.sr_pairs s r` set. -/
theorem negatives_ignore_object (dl : DataLoader) (s r o o' : Nat) :
    generate_negative_objects_for_triple dl s r o =
      generate_negative_objects_for_triple dl s r o' ∧
    (dl.WF → (o ∈ generate_negative_objects_for_triple dl s r o ↔
      o < dl.numEntities ∧ o ∉ dl.sr_pairs s r)) :=
  ⟨rfl, fun h => mem_gen_iff dl h s r o o⟩

theorem negatives_ignore_object_witness :
    generate_negative_objects_for_triple dl5 0 1 2 =
      generate_negative_objects_for_triple dl5 0 1 3 ∧
    (2 ∈ generate_negative_objects_for_triple dl5 0 1 2 ↔
      2 < dl5.numEntities ∧ 2 ∉ dl5.sr_pairs 0 1) :=
  ⟨(negatives_ignore_object dl5 0 1 2 3).1,
   (negatives_ignore_object dl5 0 1 2 3).2 dl5_wf⟩

theorem eval_foldl_spec (dl : DataLoader) (score : Nat → Nat → Nat → ℚ)
    (ks : List Nat) (test : List (Nat × Nat × Nat)) :
    ∀ acc : EvalAcc,
      (test.foldl (eval_step dl score ks) acc).mrr =
        acc.mrr + (test.map (fun t =>
          (1 : ℚ) / (rank dl (score t.1 t.2.1) t.1 t.2.1 t.2.2 : ℚ))).sum ∧
      ∀ k ∈ ks,
        (test.foldl (eval_step dl score ks) acc).hits k =
          acc.hits k + test.countP (fun t =>
            decide (rank dl (score t.1 t.2.1) t.1 t.2.1 t.2.2 ≤ k)) := by
  induction test with
  | nil => intro acc; simp
  | cons t ts ih =>
    intro acc
    obtain ⟨ih1, ih2⟩ := ih (eval_step dl score ks acc t)
    constructor
    · rw [List.foldl_cons, ih1]
      simp [eval_step]
      ring
    · intro k hk
      rw [List.foldl_cons, ih2 k hk, List.countP_cons]
      simp only [eval_step, hk, true_and]
      by_cases hrk : rank dl (score t.1 t.2.1) t.1 t.2.1 t.2.2 ≤ k
      · simp [hrk]
        omega
      · simp [hrk]

/-- Claim C3: after processing every test triple, the returned MRR is the
sum over test triples of the reciprocal ranks divided by the number of test
triples, and for each k in the configured set `[1, 3, 10]` the returned
hits@k is the number of test triples with rank ≤ k divided by the number of
test triples. -/
theorem mrr_hits_aggregation (dl : DataLoader) (score : Nat → Nat → Nat → ℚ)
    (test : List (Nat × Nat × Nat)) (h : test ≠ []) :
    (measure_performance dl score test [1, 3, 10]).1 =
      (test.map (fun t =>
        (1 : ℚ) / (rank dl (score t.1 t.2.1) t.1 t.2.1 t.2.2 : ℚ))).sum /
        (test.length : ℚ) ∧
    ∀ k ∈ ([1, 3, 10] : List Nat),
      (measure_performance dl score test [1, 3, 10]).2 k =
        ((test.countP (fun t =>
          decide (rank dl (score t.1 t.2.1) t.1 t.2.1 t.2.2 ≤ k)) : ℚ)) /
          (test.length : ℚ) := by
  obtain ⟨h1, h2⟩ :=
    eval_foldl_spec dl score [1, 3, 10] test ⟨0, fun _ => 0⟩
  constructor
  · unfold measure_performance
    dsimp only
    rw [h1]
    norm_num
  · intro k hk
    unfold measure_performance
    dsimp only
    rw [h2 k hk]
    norm_num

theorem mrr_hits_aggregation_witness :
    ([((0 : Nat), (1 : Nat), (2 : Nat))] ≠ ([] : List (Nat × Nat × Nat))) ∧
    ((measure_performance dl5 score5 [(0, 1, 2)] [1, 3, 10]).1 =
      ([(0, 1, 2)].map (fun t : Nat × Nat × Nat =>
        (1 : ℚ) / (rank dl5 (score5 t.1 t.2.1) t.1 t.2.1 t.2.2 : ℚ))).sum /
        (([(0, 1, 2)] : List (Nat × Nat × Nat)).length : ℚ) ∧
    ∀ k ∈ ([1, 3, 10] : List Nat),
      (measure_performance dl5 score5 [(0, 1, 2)] [1, 3, 10]).2 k =
        ((([(0, 1, 2)] : List (Nat × Nat × Nat)).countP (fun t =>
          decide (rank dl5 (score5 t.1 t.2.1) t.1 t.2.1 t.2.2 ≤ k)) : ℚ)) /
          (([(0, 1, 2)] : List (Nat × Nat × Nat)).length : ℚ)) :=
  ⟨by simp, mrr_hits_aggregation dl5 score5 [(0, 1, 2)] (by simp)⟩

/-- Claim C4 counterexample: on the well-formed 5-entity scenario loader,
the test triple `(1, 1, 2)` has an `(s, r)` pair unseen in training, so no
entity is filtered out and, with all scores equal, every one of the 5
negatives (the true object included) ties the true object's score: the
computed rank is 6, outside `[1, numEntities] = [1, 5]`. -/
theorem rank_range_counterexample :
    dl5.WF ∧ rank dl5 (fun _ => (0 : ℚ)) 1 1 2 = 6 ∧
    dl5.numEntities = 5 ∧ ¬(6 ≤ 5) :=
  ⟨dl5_wf, by decide, rfl, by decide⟩

/-- Claim C4 (amended): for every test triple the computed rank lies in
`[1, numEntities + 1]`; it lies in `[1, numEntities]` whenever the true
object is recorded in `dl.sr_pairs s r` (and hence excluded from the
negatives); and rank = 1 holds iff no negative's score is greater than or
equal to the true object's score. -/
theorem rank_bounds_amended (dl : DataLoader) (h : dl.WF) (f : Nat → ℚ)
    (s r o : Nat) :
    1 ≤ rank dl f s r o ∧
    rank dl f s r o ≤ dl.numEntities + 1 ∧
    (o ∈ dl.sr_pairs s r → rank dl f s r o ≤ dl.numEntities) ∧
    (rank dl f s r o = 1 ↔
      ∀ n ∈ generate_negative_objects_for_triple dl s r o, f n < f o) := by
  have hlen : (generate_negative_objects_for_triple dl s r o).length ≤
      dl.numEntities := by
    rw [gen_eq_range_filter dl h]
    calc ((List.range dl.numEntities).filter
            (fun k => decide (k ∉ dl.sr_pairs s r))).length
        ≤ (List.range dl.numEntities).length := List.length_filter_le _ _
      _ = dl.numEntities := List.length_range dl.numEntities
  have hcount : (generate_negative_objects_for_triple dl s r o).countP
      (fun n => decide (f o ≤ f n)) ≤
      (generate_negative_objects_for_triple dl s r o).length :=
    List.countP_le_length _
  refine ⟨by unfold rank; omega, by unfold rank; omega, ?_, ?_⟩
  · intro ho
    have hoN : o < dl.numEntities := Finset.mem_range.mp (h.2 s r ho)
    have hsub : (generate_negative_objects_for_triple dl s r o).toFinset ⊆
        Finset.range dl.numEntities \ {o} := by
      rw [gen_toFinset dl h]
      exact Finset.sdiff_subset_sdiff (Finset.Subset.refl _)
        (Finset.singleton_subset_iff.mpr ho)
    have hcard : (generate_negative_objects_for_triple dl s r o).length ≤
        dl.numEntities - 1 := by
      rw [← List.toFinset_card_of_nodup (gen_nodup dl h s r o)]
      calc (generate_negative_objects_for_triple dl s r o).toFinset.card
          ≤ (Finset.range dl.numEntities \ {o}).card :=
            Finset.card_le_card hsub
        _ = dl.numEntities - 1 := by
            rw [Finset.card_sdiff
              (Finset.singleton_subset_iff.mpr (Finset.mem_range.mpr hoN))]
            simp
    unfold rank
    omega
  · unfold rank
    constructor
    · intro h1 n hn
      have h0 : (generate_negative_objects_for_triple dl s r o).countP
          (fun m => decide (f o ≤ f m)) = 0 := by omega
      have := List.countP_eq_zero.mp h0 n hn
      simpa using this
    · intro hall
      have h0 : (generate_negative_objects_for_triple dl s r o).countP
          (fun m => decide (f o ≤ f m)) = 0 :=
        List.countP_eq_zero.mpr (fun n hn => by simpa using hall n hn)
      omega

theorem rank_bounds_amended_witness :
    dl5.WF ∧
    (1 ≤ rank dl5 (score5 0 1) 0 1 2 ∧
    rank dl5 (score5 0 1) 0 1 2 ≤ dl5.numEntities + 1 ∧
    (2 ∈ dl5.sr_pairs 0 1 → rank dl5 (score5 0 1) 0 1 2 ≤ dl5.numEntities) ∧
    (rank dl5 (score5 0 1) 0 1 2 = 1 ↔
      ∀ n ∈ generate_negative_objects_for_triple dl5 0 1 2,
        score5 0 1 n < score5 0 1 2)) :=
  ⟨dl5_wf, rank_bounds_amended dl5 dl5_wf (score5 0 1) 0 1 2⟩

/-- A scorer whose first model invocation raises. -/
def score_fail : Nat → Nat → Except String (Nat → ℚ) :=
  fun _ _ => Except.error "boom"

/-- Claim C5 counterexample: when the model invocation raises during the
evaluation pass, the pass propagates the error before `model.train()` is
reached (there is no try/finally), so the model is left in eval mode — the
final mode is `Mode.eval`, not `Mode.train`. -/
theorem mode_restore_counterexample :
    (measure_performance_modes score_fail [(0, 0, 0)]).finalMode =
      Mode.eval ∧
    (measure_performance_modes score_fail [(0, 0, 0)]).result =
      Except.error "boom" ∧
    Mode.eval ≠ Mode.train :=
  ⟨rfl, rfl, by decide⟩

/-- Claim C5 (amended): the evaluation pass runs its whole body in eval
mode, and the model is restored to train mode exactly when the pass
completes without error; an erroring pass leaves the model in eval mode. -/
theorem mode_bracketing_amended (score : Nat → Nat → Except String (Nat → ℚ))
    (test : List (Nat × Nat × Nat)) :
    (measure_performance_modes score test).duringMode = Mode.eval ∧
    ((measure_performance_modes score test).finalMode = Mode.train ↔
      (measure_performance_modes score test).result.isOk = true) := by
  unfold measure_performance_modes
  cases eval_pass_body score test with
  | ok u => simp [Except.isOk, Except.toBool]
  | error e => simp [Except.isOk, Except.toBool]

/-- Claim C6: label smoothing maps the target vector `t` elementwise to
`(1 - ε)·t + ε·(1/numEntities)`; for ε = 0 the smoothed target equals the
original target, and for ε = 1 it is the constant vector `1/numEntities`
regardless of the original labels. -/
theorem label_smoothing_spec (ε : ℚ) (N : Nat) (t : Nat → ℚ) :
    (∀ i, smooth_target ε N t i = (1 - ε) * t i + ε * (1 / (N : ℚ))) ∧
    smooth_target 0 N t = t ∧
    (∀ i, smooth_target 1 N t i = 1 / (N : ℚ)) := by
  refine ⟨fun i => rfl, funext fun i => ?_, fun i => ?_⟩
  · simp [smooth_target]
  · simp [smooth_target]

/-- Claim C7: with the source's evaluation cadence of 10, the epoch loop of
`train` invokes the evaluator exactly at those 0-indexed epochs whose
1-indexed number is a multiple of 10: with `epochs = 10` evaluation runs
exactly once (at epoch index 9), and with `epochs = 9` it never runs. -/
theorem eval_cadence_spec :
    eval_invocations 10 = 1 ∧ eval_invocations 9 = 0 ∧
    eval_epochs 10 = [9] ∧
    ∀ epochs epoch : Nat,
      epoch ∈ eval_epochs epochs ↔ epoch < epochs ∧ 10 ∣ (epoch + 1) := by
  refine ⟨by decide, by decide, by decide, ?_⟩
  intro epochs epoch
  simp [eval_epochs, List.mem_filter, List.mem_range,
    Nat.dvd_iff_mod_eq_zero]

theorem train_step_fold_invariant :
    ∀ (losses : List FloatVal) (acc : TrainStepResult), acc.error = none →
      (losses.foldl
        (fun a l => ⟨a.optimizer_steps + 1, a.loss_avg.add l, none⟩)
        acc).error = none ∧
      (losses.foldl
        (fun a l => ⟨a.optimizer_steps + 1, a.loss_avg.add l, none⟩)
        acc).optimizer_steps = acc.optimizer_steps + losses.length
  | [], acc, h => by simpa using h
  | l :: ls, acc, h => by
    obtain ⟨h1, h2⟩ := train_step_fold_invariant ls
      ⟨acc.optimizer_steps + 1, acc.loss_avg.add l, none⟩ rfl
    refine ⟨by simpa using h1, ?_⟩
    rw [List.foldl_cons, h2]
    simp
    omega

/-- Claim C9 (code behavior): `_train_step` has no finiteness guard — for
any sequence of per-batch loss values it reports no error and applies one
optimizer step per batch; in particular, on a single batch whose loss is
NaN (a non-finite value) it still applies the optimizer step and completes
normally instead of aborting the epoch. -/
theorem nan_loss_no_abort :
    (∀ losses : List FloatVal,
      (train_step_run losses).error = none ∧
      (train_step_run losses).optimizer_steps = losses.length) ∧
    train_step_run [FloatVal.nan] = ⟨1, FloatVal.nan, none⟩ ∧
    FloatVal.nan.isFinite = false := by
  refine ⟨fun losses => ?_, rfl, rfl⟩
  obtain ⟨h1, h2⟩ :=
    train_step_fold_invariant losses ⟨0, FloatVal.finite 0, none⟩ rfl
  exact ⟨h1, by simpa using h2⟩

end TuckerRoutine
